import Mathlib

/-!
Verification development for the emission-factors semantic-search service
(`emission_factors_api/app/core/vector_search.py` and its data model in
`app/models/emission_factor.py`).

Shallow embedding conventions:
* Python floats are modelled as exact rationals `ℚ`; the near-zero norm test
  `np.linalg.norm(v) < 1e-6` is modelled by comparing the squared norm with
  `(1e-6)^2 = 1e-12`, which is equivalent for nonnegative reals.
* Query text is a `List Char`; Python's `str.strip()` is `pyStrip` below.
* Exceptions become explicit error values: the loader absorbs per-record
  exceptions into its invalid counter exactly where the Python `try/except`
  blocks do, and `encode_query` / `search` return discriminated outcomes for
  the `raise` statements they contain.
* The service object `VectorSearchService` becomes an explicit `ServiceState`
  record threaded through the methods `load_data`, `build_index` and `search`.
-/

namespace VectorSearch

/-- The record model (`EmissionFactor` in `app/models/emission_factor.py`):
`ef_id : int` plus optional descriptive string fields plus the embedding
vector.  The pydantic model carries further optional string fields
(`ipcc_category_1996`, `fuel_2006`, `region`, ...); they are inert payload with
exactly the same status as the four representative ones kept here — they are
copied into search results unchanged and never inspected by any algorithm. -/
structure EmissionFactor where
  ef_id : Int
  gas : Option String
  description : Option String
  value : Option String
  unit : Option String
  vector : List ℚ
deriving DecidableEq, Inhabited

/-- A search hit as assembled in `VectorSearchService.search`:
`ef.dict(exclude=\x7b'vector'\x7d)` plus the `similarity_score` field. -/
structure SearchResult where
  ef_id : Int
  gas : Option String
  description : Option String
  value : Option String
  unit : Option String
  similarity_score : ℚ
deriving DecidableEq, Inhabited

/-- Squared L2 norm of a vector.  `np.linalg.norm v < 1e-6` is modelled as
`normSq v < eps2` with `eps2 = (1e-6)^2`. -/
def normSq (v : List ℚ) : ℚ := (v.map fun x => x * x).sum

/-- `(1e-6)^2`: the squared near-zero threshold used by `encode_query`
(line 198) and `search` (line 240). -/
def eps2 : ℚ := 1 / 1000000000000

/-- Squared Euclidean distance, the metric of `faiss.IndexFlatL2`. -/
def sqDist (u v : List ℚ) : ℚ :=
  (List.zipWith (fun a b => (a - b) * (a - b)) u v).sum

/-- The comparison under which neighbors are ranked: ascending distance,
ties broken by ascending corpus ordinal. -/
def pairLe (a b : Nat × ℚ) : Prop :=
  a.2 < b.2 ∨ (a.2 = b.2 ∧ a.1 ≤ b.1)

instance : DecidableRel pairLe := fun a b =>
  inferInstanceAs (Decidable (_ ∨ _))

instance : IsTotal (Nat × ℚ) pairLe where
  total a b := by
    rcases lt_trichotomy a.2 b.2 with h | h | h
    · exact Or.inl (Or.inl h)
    · rcases Nat.le_total a.1 b.1 with h1 | h1
      · exact Or.inl (Or.inr ⟨h, h1⟩)
      · exact Or.inr (Or.inr ⟨h.symm, h1⟩)
    · exact Or.inr (Or.inl h)

instance : IsTrans (Nat × ℚ) pairLe where
  trans a b c hab hbc := by
    rcases hab with hab | ⟨hab, hab1⟩
    · rcases hbc with hbc | ⟨hbc, _⟩
      · exact Or.inl (hab.trans hbc)
      · exact Or.inl (hbc ▸ hab)
    · rcases hbc with hbc | ⟨hbc, hbc1⟩
      · exact Or.inl (hab ▸ hbc)
      · exact Or.inr ⟨hab.trans hbc, hab1.trans hbc1⟩

/-- The (ordinal, squared distance) table an exhaustive scan produces for a
query `q` over the stored vectors, in storage order. -/
def pairsFor (q : List ℚ) (vecs : List (List ℚ)) : List (Nat × ℚ) :=
  (List.range vecs.length).map fun i => (i, sqDist q (vecs.getD i []))

/-- Modelled from the spec: the Vector Index is `faiss.IndexFlatL2`, an
external library whose code is not part of this repository; §4.3 of the spec
fixes its contract.  It stores the corpus vectors contiguously in insertion
order together with their common dimension. -/
structure VIndex where
  dim : Nat
  vecs : List (List ℚ)
deriving DecidableEq

/-- Modelled from the spec: `query(vector, k)` of the Vector Index (§4.3) —
exact exhaustive squared-Euclidean scan, results ordered by
(distance, ordinal), `k` clamped to the number of stored vectors.  faiss pads
with index `-1` when `k` exceeds `ntotal`; the padding is dropped again by the
`idx != -1` filter in `search`, so the model returns only the
`min k ntotal` real neighbors.  Querying with a vector of the wrong dimension
fails inside the library (modelled as `none`); per §4.3 the index may assume
the dimension matches. -/
def VIndex.query (idx : VIndex) (q : List ℚ) (k : Nat) : Option (List (Nat × ℚ)) :=
  if q.length = idx.dim then
    some ((List.insertionSort pairLe (pairsFor q idx.vecs)).take k)
  else none

/-- The mutable fields of `VectorSearchService` that the algorithms touch. -/
structure ServiceState where
  emission_factors : List EmissionFactor
  index : Option VIndex
  dimension : Option Nat
  expected_dimension : Option Nat
deriving DecidableEq

/-- A raw corpus item as found inside a JSON file, abstracted to the
properties `load_data` branches on: presence of the `ef_id` and `vector`
keys (line 79; a non-dict item raising `TypeError` there lands in the same
`except` and is likewise one invalid item), whether the `vector` value is a
list (line 85), whether `EmissionFactor(**item)` succeeds (line 102, pydantic
validation), and the parsed payload itself (whose `vector` field is the
item's vector). -/
structure RawItem where
  hasRequired : Bool
  vectorIsList : Bool
  constructOk : Bool
  payload : EmissionFactor
deriving DecidableEq

/-- A raw source file: unreadable / JSON-undecodable (both `except` branches,
lines 108-112), decodable but not a list (line 70), or a list of items. -/
inductive RawFile where
  | unreadable
  | notList
  | records (items : List RawItem)
deriving DecidableEq

/-- Accumulator of the `load_data` loops: records loaded so far, the
`expected_dimension` attribute, and the two counters. -/
structure LoadAcc where
  records : List EmissionFactor
  expected : Option Nat
  valid : Nat
  invalid : Nat
deriving DecidableEq

/-- One iteration of the inner item loop of `load_data` (lines 76-107). -/
def processItem (acc : LoadAcc) (it : RawItem) : LoadAcc :=
  if !it.hasRequired then { acc with invalid := acc.invalid + 1 }
  else if !it.vectorIsList then { acc with invalid := acc.invalid + 1 }
  else
    let exp1 : Option Nat :=
      if acc.expected = none ∧ 0 < it.payload.vector.length then
        some it.payload.vector.length
      else acc.expected
    if some it.payload.vector.length ≠ exp1 then
      { acc with expected := exp1, invalid := acc.invalid + 1 }
    else if !it.constructOk then
      { acc with expected := exp1, invalid := acc.invalid + 1 }
    else
      { records := acc.records ++ [it.payload], expected := exp1,
        valid := acc.valid + 1, invalid := acc.invalid }

/-- One iteration of the file loop of `load_data` (lines 64-112): files that
fail to open, fail to decode, or do not contain a list are skipped whole. -/
def processFile (acc : LoadAcc) (f : RawFile) : LoadAcc :=
  match f with
  | .records items => items.foldl processItem acc
  | _ => acc

/-- Result of a `load_data` call: the updated service state, the boolean the
method returns, and the two counters it logs. -/
structure LoadResult where
  state : ServiceState
  ok : Bool
  valid : Nat
  invalid : Nat
deriving DecidableEq

/-- `VectorSearchService.load_data` (lines 46-115).  The corpus list is
cleared first (line 48); `expected_dimension` is *not* reset.  An empty glob
returns `False` immediately (line 56-58).  Otherwise every file is processed
and the method returns `len(self.emission_factors) > 0`.  The `index` and
`dimension` attributes are never touched. -/
def load_data (svc : ServiceState) (files : List RawFile) : LoadResult :=
  let svc0 := { svc with emission_factors := [] }
  if files.isEmpty then ⟨svc0, false, 0, 0⟩
  else
    let acc := files.foldl processFile ⟨[], svc.expected_dimension, 0, 0⟩
    ⟨{ svc0 with emission_factors := acc.records, expected_dimension := acc.expected },
      decide (0 < acc.records.length), acc.valid, acc.invalid⟩

/-- `VectorSearchService.build_index` (lines 117-146).  Fails on an empty
corpus; `np.array(vectors, dtype=np.float32)` yields a 2-D array exactly when
all vectors have equal length (a ragged list raises, caught at line 143 and
turned into `False` with the state untouched); on success `dimension` is the
common length (`vectors_np.shape[1]`) and a fresh flat-L2 index over the
corpus vectors replaces `self.index`. -/
def build_index (svc : ServiceState) : ServiceState × Bool :=
  if svc.emission_factors.isEmpty then (svc, false)
  else
    let vectors := svc.emission_factors.map (·.vector)
    let d := (vectors.headD []).length
    if vectors.all fun v => v.length = d then
      ({ svc with dimension := some d, index := some ⟨d, vectors⟩ }, true)
    else (svc, false)

/-- What the embedding provider (`bedrock_client.generate_embedding`)
returns: `None` / an exception (line 178-180), a non-list value (line 186),
or a list of floats. -/
inductive ProviderResult where
  | failure
  | nonList
  | vec (v : List ℚ)
deriving DecidableEq

/-- The distinct exceptions `encode_query` can raise: a provider failure
(`None` result, wrong type, missing method — lines 160, 180, 187) versus the
degenerate near-zero-norm vector (line 201). -/
inductive EncodeError where
  | providerFailure
  | degenerate
deriving DecidableEq

/-- Outcome of `encode_query`: the vector, or the propagated exception. -/
inductive EncodeResult where
  | ok (v : List ℚ)
  | error (e : EncodeError)
deriving DecidableEq

/-- Python's `str.strip()` on the query text (line 154): drop leading and
trailing whitespace.  Unicode whitespace is modelled by
`Char.isWhitespace`. -/
def pyStrip (s : List Char) : List Char :=
  (((s.dropWhile Char.isWhitespace).reverse).dropWhile Char.isWhitespace).reverse

/-- `VectorSearchService.encode_query` (lines 148-212): strip the text, call
the provider with the stripped text, reject a `None`/non-list result
(`ValueError`), reject a vector of norm `< 1e-6` (`ValueError`, line 198-201);
the final `except` re-raises every failure (line 205-212), so each error
propagates to the caller. -/
def encode_query (provider : List Char → ProviderResult) (query_text : List Char) :
    EncodeResult :=
  match provider (pyStrip query_text) with
  | .failure => .error .providerFailure
  | .nonList => .error .providerFailure
  | .vec v =>
    if normSq v < eps2 then .error .degenerate else .ok v

/-- Outcome of a `search` call, discriminating the `raise` sites:
`initFailure` is the `ValueError` of line 220 (lazy initialization failed),
`encodeError` a propagated `encode_query` exception (or the norm re-check of
line 240-242), `indexError` an exception out of `self.index.search`, and
`ok results query_vector` the normal return of line 267. -/
inductive SearchOutcome where
  | initFailure
  | encodeError (e : EncodeError)
  | indexError
  | ok (results : List SearchResult) (query_vector : List ℚ)
deriving DecidableEq

/-- A `search` call's observable effect: its outcome, the service state it
leaves behind, and — instrumentation for the dimension-validation claim —
the vector handed to `self.index.search`, if that call was reached. -/
structure SearchRun where
  outcome : SearchOutcome
  state : ServiceState
  queried : Option (List ℚ)
deriving DecidableEq

/-- A fallback record for the (never-reached) out-of-range list access: the
Python `self.emission_factors[idx]` is guarded by `idx < len(...)`. -/
def defEF : EmissionFactor := default

/-- Result assembly of `search` (lines 258-262): the record's fields without
the raw vector, plus `similarity_score = 1 / (1 + distance)`. -/
def mkResult (ef : EmissionFactor) (distance : ℚ) : SearchResult :=
  ⟨ef.ef_id, ef.gas, ef.description, ef.value, ef.unit, 1 / (1 + distance)⟩

/-- The body of `search` after lazy initialization (lines 222-267), running
against the service state `svc` whose `index` attribute is `idx`:
encode the query (exceptions propagate), re-check the norm (line 240-242),
clamp `top_k` to `len(self.emission_factors)` (line 250), query the index,
and keep every hit with a valid ordinal (`idx != -1 and idx < len`,
line 257), attaching `1 / (1 + distance)` as score. -/
def searchReady (svc : ServiceState) (idx : VIndex)
    (provider : List Char → ProviderResult) (query_text : List Char)
    (top_k : Nat) : SearchRun :=
  match encode_query provider query_text with
  | .error e => ⟨.encodeError e, svc, none⟩
  | .ok qv =>
    if normSq qv < eps2 then ⟨.encodeError .degenerate, svc, none⟩
    else
      let k := min top_k svc.emission_factors.length
      match idx.query qv k with
      | none => ⟨.indexError, svc, some qv⟩
      | some pairs =>
        ⟨.ok (pairs.filterMap fun p =>
            if p.1 < svc.emission_factors.length then
              some (mkResult (svc.emission_factors.getD p.1 defEF) p.2)
            else none) qv,
          svc, some qv⟩

/-- `VectorSearchService.search` (lines 214-267).  If `self.index` is unset,
`load_data` and then `build_index` run lazily (line 216-220, short-circuit:
a failed load skips the build); failure raises the `ValueError` of line 220.
Otherwise the ready path runs against the current state.  (After a successful
build the `index` attribute is necessarily set, so the inner `none` arm is
dead code.) -/
def search (svc : ServiceState) (provider : List Char → ProviderResult)
    (files : List RawFile) (query_text : List Char) (top_k : Nat) : SearchRun :=
  match svc.index with
  | some idx => searchReady svc idx provider query_text top_k
  | none =>
    let lr := load_data svc files
    if lr.ok then
      let br := build_index lr.state
      if br.2 then
        match br.1.index with
        | some idx2 => searchReady br.1 idx2 provider query_text top_k
        | none => ⟨.initFailure, br.1, none⟩
      else ⟨.initFailure, br.1, none⟩
    else ⟨.initFailure, lr.state, none⟩

/-- First dimension `load_data`'s item loop would adopt from a list of items:
the length of the first item that has the required keys, a list-valued
vector, and a positive vector length (lines 90-93; adoption precedes the
`EmissionFactor` construction, so `constructOk` plays no role here). -/
def firstDimItems : List RawItem → Option Nat
  | [] => none
  | it :: rest =>
    if it.hasRequired ∧ it.vectorIsList ∧ 0 < it.payload.vector.length then
      some it.payload.vector.length
    else firstDimItems rest

/-- First dimension adopted across a list of files. -/
def firstDimFiles : List RawFile → Option Nat
  | [] => none
  | f :: rest =>
    match f with
    | .records items =>
      match firstDimItems items with
      | some d => some d
      | none => firstDimFiles rest
    | _ => firstDimFiles rest

/- Batteries marks the rational-number operations irreducible; re-enable
unfolding locally so that concrete runs of the model evaluate by `decide`. -/
attribute [local semireducible] Rat.add Rat.sub Rat.mul Rat.inv

/-! ## General lemmas about the embedded operations -/

theorem sqDist_nonneg (u v : List ℚ) : 0 ≤ sqDist u v := by
  induction u generalizing v with
  | nil => cases v <;> simp [sqDist]
  | cons a u ih =>
    cases v with
    | nil => simp [sqDist]
    | cons b v =>
      have hstep : sqDist (a :: u) (b :: v) = (a - b) * (a - b) + sqDist u v := by
        simp [sqDist]
      rw [hstep]
      exact add_nonneg (mul_self_nonneg _) (ih v)

theorem score_pos {d : ℚ} (hd : 0 ≤ d) : 0 < 1 / (1 + d) :=
  one_div_pos.mpr (by linarith)

theorem score_le_one {d : ℚ} (hd : 0 ≤ d) : 1 / (1 + d) ≤ 1 := by
  rw [div_le_one (by linarith)]
  linarith

theorem score_anti {d₁ d₂ : ℚ} (h1 : 0 ≤ d₁) (hlt : d₁ < d₂) :
    1 / (1 + d₂) < 1 / (1 + d₁) :=
  one_div_lt_one_div_of_lt (by linarith) (by linarith)

theorem score_anti_le {d₁ d₂ : ℚ} (h1 : 0 ≤ d₁) (hle : d₁ ≤ d₂) :
    1 / (1 + d₂) ≤ 1 / (1 + d₁) :=
  one_div_le_one_div_of_le (by linarith) (by linarith)

theorem filterMap_guard_eq_map {β : Type} (g : Nat × ℚ → β) (n : Nat) :
    ∀ l : List (Nat × ℚ), (∀ p ∈ l, p.1 < n) →
      (l.filterMap fun p => if p.1 < n then some (g p) else none) = l.map g := by
  intro l
  induction l with
  | nil => intro _; rfl
  | cons p l ih =>
    intro h
    simp only [List.filterMap_cons, List.map_cons, if_pos (h p (by simp))]
    rw [ih fun q hq => h q (by simp [hq])]

/-- The ranked neighbor table the model index returns: each entry's ordinal
addresses a stored vector and its distance is the squared Euclidean distance
to that vector. -/
theorem mem_ranked {q : List ℚ} {vecs : List (List ℚ)} {k : Nat} {p : Nat × ℚ}
    (hp : p ∈ (List.insertionSort pairLe (pairsFor q vecs)).take k) :
    p.1 < vecs.length ∧ p.2 = sqDist q (vecs.getD p.1 []) := by
  have h1 : p ∈ List.insertionSort pairLe (pairsFor q vecs) :=
    List.take_subset k _ hp
  have h2 : p ∈ pairsFor q vecs := (List.perm_insertionSort _ _).subset h1
  unfold pairsFor at h2
  simp only [List.mem_map, List.mem_range] at h2
  obtain ⟨i, hi, rfl⟩ := h2
  exact ⟨hi, rfl⟩

theorem ranked_length (q : List ℚ) (vecs : List (List ℚ)) (k : Nat) :
    ((List.insertionSort pairLe (pairsFor q vecs)).take k).length
      = min k vecs.length := by
  simp [List.length_take, List.length_insertionSort, pairsFor]

theorem ranked_sorted (q : List ℚ) (vecs : List (List ℚ)) (k : Nat) :
    ((List.insertionSort pairLe (pairsFor q vecs)).take k).Pairwise pairLe :=
  (List.sorted_insertionSort pairLe _).sublist (List.take_sublist _ _)

theorem ranked_nodup_fst (q : List ℚ) (vecs : List (List ℚ)) (k : Nat) :
    ((List.insertionSort pairLe (pairsFor q vecs)).take k).Pairwise
      fun a b => a.1 ≠ b.1 := by
  have hr : (pairsFor q vecs).map Prod.fst = List.range vecs.length := by
    simp only [pairsFor, List.map_map, Function.comp]
    exact List.map_id _
  have hnd : ((List.insertionSort pairLe (pairsFor q vecs)).map Prod.fst).Nodup := by
    rw [((List.perm_insertionSort pairLe (pairsFor q vecs)).map Prod.fst).nodup_iff]
    rw [hr]
    exact List.nodup_range _
  have hpw : (List.insertionSort pairLe (pairsFor q vecs)).Pairwise
      fun a b => a.1 ≠ b.1 := by
    rw [List.Nodup, List.pairwise_map] at hnd
    exact hnd
  exact hpw.sublist (List.take_sublist _ _)

/-- Strict version of the ranking order: ascending distance with ties broken
by strictly ascending corpus ordinal (ordinals never repeat). -/
theorem ranked_sorted_strict (q : List ℚ) (vecs : List (List ℚ)) (k : Nat) :
    ((List.insertionSort pairLe (pairsFor q vecs)).take k).Pairwise
      fun a b => a.2 < b.2 ∨ (a.2 = b.2 ∧ a.1 < b.1) := by
  have h := (ranked_sorted q vecs k).and (ranked_nodup_fst q vecs k)
  refine h.imp ?_
  rintro a b ⟨hle | ⟨heq, hord⟩, hne⟩
  · exact Or.inl hle
  · exact Or.inr ⟨heq, lt_of_le_of_ne hord hne⟩

/-- Evaluation of the ready-path of `search` when the provider returns a
usable vector of the index's dimension. -/
theorem searchReady_ok (svc : ServiceState) (idx : VIndex)
    (provider : List Char → ProviderResult) (t : List Char) (k : Nat)
    (qv : List ℚ)
    (h3 : provider (pyStrip t) = .vec qv)
    (h5 : ¬ normSq qv < eps2)
    (h4 : qv.length = idx.dim) :
    searchReady svc idx provider t k =
      ⟨.ok (((List.insertionSort pairLe (pairsFor qv idx.vecs)).take
          (min k svc.emission_factors.length)).filterMap fun p =>
          if p.1 < svc.emission_factors.length then
            some (mkResult (svc.emission_factors.getD p.1 defEF) p.2)
          else none) qv,
        svc, some qv⟩ := by
  simp only [searchReady, encode_query, h3, if_neg h5, VIndex.query, if_pos h4]

/-- Evaluation of `search` from a ready state with a usable provider
vector. -/
theorem search_ok (svc : ServiceState) (idx : VIndex)
    (provider : List Char → ProviderResult) (files : List RawFile)
    (t : List Char) (k : Nat) (qv : List ℚ)
    (h1 : svc.index = some idx)
    (h3 : provider (pyStrip t) = .vec qv)
    (h5 : ¬ normSq qv < eps2)
    (h4 : qv.length = idx.dim) :
    search svc provider files t k =
      ⟨.ok (((List.insertionSort pairLe (pairsFor qv idx.vecs)).take
          (min k svc.emission_factors.length)).filterMap fun p =>
          if p.1 < svc.emission_factors.length then
            some (mkResult (svc.emission_factors.getD p.1 defEF) p.2)
          else none) qv,
        svc, some qv⟩ := by
  simp only [search, h1]
  exact searchReady_ok svc idx provider t k qv h3 h5 h4

/-- The ready-path of `search` when the provider returns a vector whose norm
is below the near-zero threshold: the `ValueError` of `encode_query`
line 201 propagates. -/
theorem searchReady_degenerate (svc : ServiceState) (idx : VIndex)
    (provider : List Char → ProviderResult) (t : List Char) (k : Nat)
    (v : List ℚ)
    (h3 : provider (pyStrip t) = .vec v)
    (h5 : normSq v < eps2) :
    searchReady svc idx provider t k = ⟨.encodeError .degenerate, svc, none⟩ := by
  simp only [searchReady, encode_query, h3, if_pos h5]

/-! ## Loader invariants -/

theorem processItem_expected_some (acc : LoadAcc) (it : RawItem) (d : Nat)
    (h : acc.expected = some d) : (processItem acc it).expected = some d := by
  unfold processItem
  split_ifs <;> try simp_all
  all_goals split <;> simp_all

theorem processItem_expected_none (acc : LoadAcc) (it : RawItem)
    (h : acc.expected = none) :
    (processItem acc it).expected =
      if it.hasRequired ∧ it.vectorIsList ∧ 0 < it.payload.vector.length then
        some it.payload.vector.length
      else none := by
  unfold processItem
  split_ifs <;> try simp_all
  all_goals split <;> simp_all

/-- Each item either increments the invalid counter or appends exactly one
record and increments the valid counter. -/
theorem processItem_records (acc : LoadAcc) (it : RawItem) :
    (processItem acc it).records.length + acc.valid
      = acc.records.length + (processItem acc it).valid := by
  unfold processItem
  split_ifs <;> try simp_all
  all_goals try (split <;> simp_all)
  all_goals omega

theorem foldl_processItem_expected_some (items : List RawItem) :
    ∀ acc d, acc.expected = some d →
      (items.foldl processItem acc).expected = some d := by
  induction items with
  | nil => intro acc d h; exact h
  | cons it rest ih =>
    intro acc d h
    exact ih _ d (processItem_expected_some acc it d h)

theorem foldl_processItem_expected_none (items : List RawItem) :
    ∀ acc, acc.expected = none →
      (items.foldl processItem acc).expected = firstDimItems items := by
  induction items with
  | nil => intro acc h; exact h
  | cons it rest ih =>
    intro acc h
    by_cases hq : it.hasRequired ∧ it.vectorIsList ∧ 0 < it.payload.vector.length
    · have h1 : (processItem acc it).expected = some it.payload.vector.length := by
        rw [processItem_expected_none acc it h, if_pos hq]
      simp only [List.foldl_cons, firstDimItems, if_pos hq]
      exact foldl_processItem_expected_some rest _ _ h1
    · have h1 : (processItem acc it).expected = none := by
        rw [processItem_expected_none acc it h, if_neg hq]
      simp only [List.foldl_cons, firstDimItems, if_neg hq]
      exact ih _ h1

theorem foldl_processItem_records (items : List RawItem) :
    ∀ acc, (items.foldl processItem acc).records.length + acc.valid
      = acc.records.length + (items.foldl processItem acc).valid := by
  induction items with
  | nil => intro acc; rfl
  | cons it rest ih =>
    intro acc
    have h1 := processItem_records acc it
    have h2 := ih (processItem acc it)
    simp only [List.foldl_cons]
    omega

theorem processFile_expected_some (acc : LoadAcc) (f : RawFile) (d : Nat)
    (h : acc.expected = some d) : (processFile acc f).expected = some d := by
  cases f with
  | records items => exact foldl_processItem_expected_some items acc d h
  | unreadable => exact h
  | notList => exact h

theorem foldl_processFile_expected_some (files : List RawFile) :
    ∀ acc d, acc.expected = some d →
      (files.foldl processFile acc).expected = some d := by
  induction files with
  | nil => intro acc d h; exact h
  | cons f rest ih =>
    intro acc d h
    exact ih _ d (processFile_expected_some acc f d h)

theorem foldl_processFile_expected_none (files : List RawFile) :
    ∀ acc, acc.expected = none →
      (files.foldl processFile acc).expected = firstDimFiles files := by
  induction files with
  | nil => intro acc h; exact h
  | cons f rest ih =>
    intro acc h
    cases f with
    | records items =>
      rcases hfd : firstDimItems items with _ | d
      · have h1 : (processFile acc (.records items)).expected = none := by
          simpa [processFile, hfd] using
            foldl_processItem_expected_none items acc h
        simp only [List.foldl_cons, firstDimFiles, hfd]
        exact ih _ h1
      · have h1 : (processFile acc (.records items)).expected = some d := by
          simpa [processFile, hfd] using
            foldl_processItem_expected_none items acc h
        simp only [List.foldl_cons, firstDimFiles, hfd]
        exact foldl_processFile_expected_some rest _ d h1
    | unreadable =>
      simp only [List.foldl_cons, firstDimFiles]
      exact ih _ h
    | notList =>
      simp only [List.foldl_cons, firstDimFiles]
      exact ih _ h

theorem processFile_records (acc : LoadAcc) (f : RawFile) :
    (processFile acc f).records.length + acc.valid
      = acc.records.length + (processFile acc f).valid := by
  cases f with
  | records items => exact foldl_processItem_records items acc
  | unreadable => rfl
  | notList => rfl

theorem foldl_processFile_records (files : List RawFile) :
    ∀ acc, (files.foldl processFile acc).records.length + acc.valid
      = acc.records.length + (files.foldl processFile acc).valid := by
  induction files with
  | nil => intro acc; rfl
  | cons f rest ih =>
    intro acc
    have h1 := processFile_records acc f
    have h2 := ih (processFile acc f)
    simp only [List.foldl_cons]
    omega

theorem firstDimItems_ne_zero (items : List RawItem) :
    firstDimItems items ≠ some 0 := by
  induction items with
  | nil => simp [firstDimItems]
  | cons it rest ih =>
    unfold firstDimItems
    split_ifs with hq
    · simp only [ne_eq, Option.some.injEq]
      omega
    · exact ih

theorem firstDimFiles_ne_zero (files : List RawFile) :
    firstDimFiles files ≠ some 0 := by
  induction files with
  | nil => simp [firstDimFiles]
  | cons f rest ih =>
    cases f with
    | records items =>
      rcases hfd : firstDimItems items with _ | d
      · simpa [firstDimFiles, hfd] using ih
      · simpa [firstDimFiles, hfd] using firstDimItems_ne_zero items
    | unreadable => simpa [firstDimFiles] using ih
    | notList => simpa [firstDimFiles] using ih

/-! ## Whitespace stripping -/

theorem dropWhile_append_all {p : Char → Bool} :
    ∀ {ws : List Char}, ∀ l : List Char, (∀ c ∈ ws, p c = true) →
      (ws ++ l).dropWhile p = l.dropWhile p := by
  intro ws
  induction ws with
  | nil => intro l _; rfl
  | cons c ws ih =>
    intro l h
    rw [List.cons_append, List.dropWhile_cons, if_pos (h c (by simp))]
    exact ih l fun c hc => h c (by simp [hc])

theorem dropWhile_all {p : Char → Bool} {ws : List Char}
    (h : ∀ c ∈ ws, p c = true) : ws.dropWhile p = [] := by
  have := @dropWhile_append_all p ws [] h
  simpa using this

/-- Stripping is insensitive to extra surrounding whitespace: the cleaned
query of line 154 is the same for `t` and for `t` padded on both sides. -/
theorem pyStrip_pad (t ws1 ws2 : List Char)
    (h1 : ∀ c ∈ ws1, c.isWhitespace = true)
    (h2 : ∀ c ∈ ws2, c.isWhitespace = true) :
    pyStrip (ws1 ++ t ++ ws2) = pyStrip t := by
  unfold pyStrip
  rw [List.append_assoc, dropWhile_append_all (t ++ ws2) h1,
    List.dropWhile_append]
  rcases hlt : (t.dropWhile Char.isWhitespace).isEmpty with _ | _
  · rw [if_neg (by simp [hlt]), List.reverse_append,
      dropWhile_append_all _ (fun c hc => h2 c (by simpa using hc))]
  · rw [if_pos (by simp [hlt]), dropWhile_all h2]
    rw [List.isEmpty_iff] at hlt
    rw [hlt]

/-! ## Loader-level lemmas -/

/-- `load_data` updates `expected_dimension` only when it was still unset:
an already-established dimension survives every later load pass unchanged. -/
theorem load_data_expected (svc : ServiceState) (files : List RawFile) :
    (load_data svc files).state.expected_dimension =
      match svc.expected_dimension with
      | some d => some d
      | none => firstDimFiles files := by
  cases files with
  | nil =>
    cases hexp : svc.expected_dimension <;>
      simp [load_data, firstDimFiles, hexp]
  | cons f fs =>
    cases hexp : svc.expected_dimension with
    | none =>
      unfold load_data
      rw [if_neg (by simp : ¬((f :: fs).isEmpty = true))]
      dsimp only
      rw [hexp]
      exact foldl_processFile_expected_none (f :: fs) _ rfl
    | some d =>
      unfold load_data
      rw [if_neg (by simp : ¬((f :: fs).isEmpty = true))]
      dsimp only
      rw [hexp]
      exact foldl_processFile_expected_some (f :: fs) _ d rfl

/-- `load_data` never touches the index or its recorded dimension. -/
theorem load_data_index (svc : ServiceState) (files : List RawFile) :
    (load_data svc files).state.index = svc.index ∧
    (load_data svc files).state.dimension = svc.dimension := by
  unfold load_data
  split <;> exact ⟨rfl, rfl⟩

/-- The valid counter equals the number of records accumulated, and the
returned boolean is true exactly when that number is positive. -/
theorem load_data_counts (svc : ServiceState) (files : List RawFile) :
    (load_data svc files).valid
      = (load_data svc files).state.emission_factors.length ∧
    ((load_data svc files).ok = true ↔ 0 < (load_data svc files).valid) := by
  cases files with
  | nil => simp [load_data]
  | cons f fs =>
    have h := foldl_processFile_records (f :: fs) ⟨[], svc.expected_dimension, 0, 0⟩
    simp only [List.length_nil] at h
    unfold load_data
    rw [if_neg (by simp : ¬((f :: fs).isEmpty = true))]
    dsimp only
    rw [decide_eq_true_eq]
    constructor
    · omega
    · constructor
      · intro hp; omega
      · intro hp; omega

/-! ## Text congruence of search -/

theorem searchReady_text_congr {provider : List Char → ProviderResult}
    {t1 t2 : List Char}
    (henc : encode_query provider t1 = encode_query provider t2)
    (svc : ServiceState) (idx : VIndex) (k : Nat) :
    searchReady svc idx provider t1 k = searchReady svc idx provider t2 k := by
  unfold searchReady
  rw [henc]

/-- `search` either fails initialization or runs the ready path against some
state and index. -/
theorem search_eq_ready_or_init (svc : ServiceState)
    (provider : List Char → ProviderResult) (files : List RawFile)
    (t : List Char) (k : Nat) :
    (∃ svc' idx, search svc provider files t k = searchReady svc' idx provider t k)
    ∨ ∃ svc', search svc provider files t k = ⟨.initFailure, svc', none⟩ := by
  unfold search
  rcases hidx : svc.index with _ | idx
  · dsimp only
    rcases hok : (load_data svc files).ok with _ | _
    · right
      refine ⟨(load_data svc files).state, ?_⟩
      simp [hok]
    · rcases hb : (build_index (load_data svc files).state).2 with _ | _
      · right
        refine ⟨(build_index (load_data svc files).state).1, ?_⟩
        simp [hok, hb]
      · rcases hidx2 : (build_index (load_data svc files).state).1.index with _ | idx2
        · right
          refine ⟨(build_index (load_data svc files).state).1, ?_⟩
          simp [hok, hb, hidx2]
        · left
          refine ⟨(build_index (load_data svc files).state).1, idx2, ?_⟩
          simp [hok, hb, hidx2]
  · left
    exact ⟨svc, idx, rfl⟩

/-! ## Claim fixtures -/

def efC1a : EmissionFactor := ⟨1, none, none, none, none, [0, 0]⟩

def efC1b : EmissionFactor := ⟨2, none, none, none, none, [1, 0]⟩

def efC1c : EmissionFactor := ⟨3, none, none, none, none, [5, 5]⟩

/-- The three-record corpus of the spec scenario, loaded in order. -/
def filesC1 : List RawFile :=
  [.records [⟨true, true, true, efC1a⟩, ⟨true, true, true, efC1b⟩,
    ⟨true, true, true, efC1c⟩]]

/-- Service state after `load_data` and `build_index` over `filesC1`. -/
def svcC1 : ServiceState :=
  (build_index (load_data ⟨[], none, none, none⟩ filesC1).state).1

def provC1 : List Char → ProviderResult := fun _ => .vec [1, 1]

/-! ## Claims -/

/-- C1: for the corpus (0,0), (1,0), (5,5) loaded in that order and query
vector (1,1) with `top_k = 2`, search returns exactly two results: the
record with vector (1,0) (squared distance 1) first, then the record with
vector (0,0) (squared distance 2); the record with vector (5,5) is not in
the result list. -/
theorem C1_three_vector_scenario :
    (search svcC1 provC1 [] ['q'] 2).outcome =
      .ok [mkResult efC1b 1, mkResult efC1a 2] [1, 1]
    ∧ sqDist [1, 1] [1, 0] = 1 ∧ sqDist [1, 1] [0, 0] = 2
    ∧ (mkResult efC1b 1).ef_id = 2 ∧ (mkResult efC1a 2).ef_id = 1
    ∧ ∀ r ∈ [mkResult efC1b 1, mkResult efC1a 2], r.ef_id ≠ 3 := by
  decide

def itemD4 : RawItem := ⟨true, true, true, ⟨10, none, none, none, none, [1, 2, 3, 4]⟩⟩

def itemD8 : RawItem :=
  ⟨true, true, true, ⟨11, none, none, none, none, [1, 2, 3, 4, 5, 6, 7, 8]⟩⟩

/-- Service state after a first load pass over a single dimension-4 record. -/
def svcC2 : ServiceState :=
  (load_data ⟨[], none, none, none⟩ [.records [itemD4]]).state

/-- C2 is false on the code: `load_data` never resets `expected_dimension`,
so a second load over a source whose first valid vector has length 8 keeps
D = 4 and rejects that vector instead of adopting 8. -/
theorem C2_counterexample :
    svcC2.expected_dimension = some 4
    ∧ (load_data svcC2 [.records [itemD8]]).state.expected_dimension = some 4
    ∧ (load_data svcC2 [.records [itemD8]]).state.expected_dimension ≠ some 8
    ∧ (load_data svcC2 [.records [itemD8]]).state.emission_factors = []
    ∧ (load_data svcC2 [.records [itemD8]]).ok = false := by
  decide

/-- C2 (amended): the expected dimension D is established by the first valid
vector with positive length encountered while D is still unset, and then
persists across every later load invocation (a second load never adopts a new
length); D = 0 is never adopted; a first record whose vector has zero length
is skipped and counted invalid, leaving D unset. -/
theorem C2_expected_dimension_amended (svc : ServiceState) (files : List RawFile) :
    ((load_data svc files).state.expected_dimension =
      match svc.expected_dimension with
      | some d => some d
      | none => firstDimFiles files)
    ∧ firstDimFiles files ≠ some 0
    ∧ ∀ acc it, acc.expected = none → it.hasRequired = true →
        it.vectorIsList = true → it.payload.vector = [] →
        processItem acc it = { acc with invalid := acc.invalid + 1 } := by
  refine ⟨load_data_expected svc files, firstDimFiles_ne_zero files, ?_⟩
  intro acc it h hreq hlist hvec
  unfold processItem
  rw [hreq, hlist, hvec, h]
  simp

def accW : LoadAcc := ⟨[], none, 0, 0⟩

def itW : RawItem := ⟨true, true, true, ⟨7, none, none, none, none, []⟩⟩

/-- Witness for C2 (amended) at a concrete zero-length first record. -/
theorem C2_expected_dimension_amended_witness :
    processItem accW itW = { accW with invalid := accW.invalid + 1 } :=
  (C2_expected_dimension_amended ⟨[], none, none, none⟩ []).2.2 accW itW rfl rfl
    rfl rfl

/-- C3 (amended): `search` performs no dimension validation at all — whenever
encoding succeeds with a non-degenerate vector, that vector is handed to the
index regardless of its length; a mismatch surfaces as an error from inside
the index library, never as a `DimensionMismatch` signaled before the
query. -/
theorem C3_no_dimension_gate_amended (svc : ServiceState) (idx : VIndex)
    (provider : List Char → ProviderResult) (files : List RawFile)
    (t : List Char) (k : Nat) (qv : List ℚ)
    (h1 : svc.index = some idx)
    (h3 : provider (pyStrip t) = .vec qv)
    (h5 : ¬ normSq qv < eps2) :
    (search svc provider files t k).queried = some qv := by
  simp only [search, h1]
  unfold searchReady
  simp only [encode_query, h3, if_neg h5]
  rcases hq : idx.query qv (min k svc.emission_factors.length) with _ | pairs <;>
    simp [hq]

def svcC3 : ServiceState :=
  ⟨[⟨1, none, none, none, none, [1, 1]⟩], some ⟨2, [[1, 1]]⟩, some 2, some 2⟩

def provC3 : List Char → ProviderResult := fun _ => .vec [1, 1, 1]

/-- Witness for C3 (amended): a 3-dimensional query vector against a
2-dimensional corpus still reaches the index. -/
theorem C3_no_dimension_gate_amended_witness :
    (search svcC3 provC3 [] ['q'] 5).queried = some [1, 1, 1] :=
  C3_no_dimension_gate_amended svcC3 ⟨2, [[1, 1]]⟩ provC3 [] ['q'] 5 [1, 1, 1]
    rfl rfl (by decide)

/-- C3 is false on the code: with a 2-dimensional corpus and a provider
returning the 3-dimensional vector (1,1,1), the index *is* queried with a
vector of the wrong dimension, and the resulting failure comes from the index
call itself, not from a `DimensionMismatch` check before it. -/
theorem C3_counterexample :
    (search svcC3 provC3 [] ['q'] 5).queried = some [1, 1, 1]
    ∧ ([1, 1, 1] : List ℚ).length ≠ 2
    ∧ svcC3.index = some ⟨2, [[1, 1]]⟩
    ∧ (search svcC3 provC3 [] ['q'] 5).outcome = .indexError := by
  decide

/-- C4: results are ranked by the stable order (distance, ordinal): the
neighbor table is strictly sorted by ascending distance with ties broken by
ascending corpus ordinal (earlier load order first), the result list is its
image, and similarity scores are non-increasing along it. -/
theorem C4_tie_break_by_ordinal (svc : ServiceState) (idx : VIndex)
    (provider : List Char → ProviderResult) (files : List RawFile)
    (t : List Char) (k : Nat) (qv : List ℚ)
    (h1 : svc.index = some idx)
    (h2 : idx.vecs = svc.emission_factors.map (·.vector))
    (h3 : provider (pyStrip t) = .vec qv)
    (h4 : qv.length = idx.dim)
    (h5 : ¬ normSq qv < eps2) :
    ∃ pairs,
      idx.query qv (min k svc.emission_factors.length) = some pairs
      ∧ pairs.Pairwise (fun a b => a.2 < b.2 ∨ (a.2 = b.2 ∧ a.1 < b.1))
      ∧ (search svc provider files t k).outcome =
          .ok (pairs.map fun p =>
            mkResult (svc.emission_factors.getD p.1 defEF) p.2) qv
      ∧ (pairs.map fun p =>
          mkResult (svc.emission_factors.getD p.1 defEF) p.2).Pairwise
          fun r s => s.similarity_score ≤ r.similarity_score := by
  have hall : ∀ p ∈ (List.insertionSort pairLe (pairsFor qv idx.vecs)).take
      (min k svc.emission_factors.length), p.1 < svc.emission_factors.length := by
    intro p hp
    have hlt := (mem_ranked hp).1
    rwa [h2, List.length_map] at hlt
  refine ⟨(List.insertionSort pairLe (pairsFor qv idx.vecs)).take
    (min k svc.emission_factors.length), ?_, ?_, ?_, ?_⟩
  · unfold VIndex.query
    rw [if_pos h4]
  · exact ranked_sorted_strict qv idx.vecs (min k svc.emission_factors.length)
  · rw [search_ok svc idx provider files t k qv h1 h3 h5 h4]
    dsimp only
    rw [filterMap_guard_eq_map
      (fun p => mkResult (svc.emission_factors.getD p.1 defEF) p.2)
      svc.emission_factors.length _ hall]
  · rw [List.pairwise_map]
    refine (ranked_sorted_strict qv idx.vecs
      (min k svc.emission_factors.length)).imp_of_mem ?_
    intro a b ha hb hab
    have hna : 0 ≤ a.2 := by
      rw [(mem_ranked ha).2]
      exact sqDist_nonneg _ _
    rcases hab with hlt | ⟨heq, _⟩
    · simpa [mkResult] using le_of_lt (score_anti hna hlt)
    · simp [mkResult, heq]

def efC4a : EmissionFactor := ⟨1, none, none, none, none, [0]⟩

def efC4b : EmissionFactor := ⟨2, none, none, none, none, [2]⟩

/-- A two-record corpus whose records are equidistant from the query (1):
both have squared distance 1, so only the ordinal tie-break orders them. -/
def svcC4 : ServiceState := ⟨[efC4a, efC4b], some ⟨1, [[0], [2]]⟩, some 1, some 1⟩

def provC4 : List Char → ProviderResult := fun _ => .vec [1]

/-- Witness for C4 at a corpus with a genuine distance tie. -/
theorem C4_tie_break_by_ordinal_witness :
    ∃ pairs,
      VIndex.query ⟨1, [[0], [2]]⟩ [1] (min 2 svcC4.emission_factors.length)
        = some pairs
      ∧ pairs.Pairwise (fun a b => a.2 < b.2 ∨ (a.2 = b.2 ∧ a.1 < b.1))
      ∧ (search svcC4 provC4 [] ['q'] 2).outcome =
          .ok (pairs.map fun p =>
            mkResult (svcC4.emission_factors.getD p.1 defEF) p.2) [1]
      ∧ (pairs.map fun p =>
          mkResult (svcC4.emission_factors.getD p.1 defEF) p.2).Pairwise
          fun r s => s.similarity_score ≤ r.similarity_score :=
  C4_tie_break_by_ordinal svcC4 ⟨1, [[0], [2]]⟩ provC4 [] ['q'] 2 [1]
    rfl rfl rfl rfl (by decide)

/-- C5: a provider vector with L2 norm below 1e-6 never yields a result set —
on a ready service the outcome is exactly the degenerate-vector failure and
the index is never queried; on any service state no `ok` outcome is
possible. -/
theorem C5_degenerate_never_results (svc : ServiceState)
    (provider : List Char → ProviderResult) (files : List RawFile)
    (t : List Char) (k : Nat) (v : List ℚ)
    (h3 : provider (pyStrip t) = .vec v)
    (h5 : normSq v < eps2) :
    (∀ results qv, (search svc provider files t k).outcome ≠ .ok results qv)
    ∧ ∀ idx, svc.index = some idx →
        (search svc provider files t k).outcome = .encodeError .degenerate
        ∧ (search svc provider files t k).queried = none := by
  have hready : ∀ (svc' : ServiceState) (idx : VIndex),
      searchReady svc' idx provider t k = ⟨.encodeError .degenerate, svc', none⟩ :=
    fun svc' idx => searchReady_degenerate svc' idx provider t k v h3 h5
  constructor
  · intro results qv
    rcases search_eq_ready_or_init svc provider files t k with ⟨svc', idx, heq⟩ | ⟨svc', heq⟩
    · rw [heq, hready]
      simp
    · rw [heq]
      simp
  · intro idx h1
    have heq : search svc provider files t k = searchReady svc idx provider t k := by
      simp only [search, h1]
    rw [heq, hready]
    exact ⟨rfl, rfl⟩

def svcC5 : ServiceState :=
  ⟨[⟨1, none, none, none, none, [1, 1]⟩], some ⟨2, [[1, 1]]⟩, some 2, some 2⟩

/-- A provider returning a tiny but nonzero vector: norm 1e-7, below the
threshold. -/
def provC5 : List Char → ProviderResult := fun _ => .vec [1 / 10000000]

/-- Witness for C5 at a concrete near-zero provider vector. -/
theorem C5_degenerate_never_results_witness :
    normSq [(1 : ℚ) / 10000000] < eps2
    ∧ (search svcC5 provC5 [] ['q'] 5).outcome = .encodeError .degenerate
    ∧ (search svcC5 provC5 [] ['q'] 5).queried = none :=
  ⟨by decide,
    (C5_degenerate_never_results svcC5 provC5 [] ['q'] 5 [(1 : ℚ) / 10000000]
      rfl (by decide)).2 ⟨2, [[1, 1]]⟩ rfl⟩

/-- C6: search returns at most `top_k` results and never more than the corpus
size; the count is exactly `min top_k n`, so `top_k = 100` against a 5-record
corpus yields exactly 5 results. -/
theorem C6_result_count (svc : ServiceState) (idx : VIndex)
    (provider : List Char → ProviderResult) (files : List RawFile)
    (t : List Char) (k : Nat) (qv : List ℚ)
    (h1 : svc.index = some idx)
    (h2 : idx.vecs = svc.emission_factors.map (·.vector))
    (h3 : provider (pyStrip t) = .vec qv)
    (h4 : qv.length = idx.dim)
    (h5 : ¬ normSq qv < eps2) :
    ∃ results,
      (search svc provider files t k).outcome = .ok results qv
      ∧ results.length = min k svc.emission_factors.length
      ∧ results.length ≤ k
      ∧ results.length ≤ svc.emission_factors.length := by
  have hall : ∀ p ∈ (List.insertionSort pairLe (pairsFor qv idx.vecs)).take
      (min k svc.emission_factors.length), p.1 < svc.emission_factors.length := by
    intro p hp
    have hlt := (mem_ranked hp).1
    rwa [h2, List.length_map] at hlt
  have hlen : (((List.insertionSort pairLe (pairsFor qv idx.vecs)).take
        (min k svc.emission_factors.length)).filterMap fun p =>
        if p.1 < svc.emission_factors.length then
          some (mkResult (svc.emission_factors.getD p.1 defEF) p.2)
        else none).length = min k svc.emission_factors.length := by
    rw [filterMap_guard_eq_map
      (fun p => mkResult (svc.emission_factors.getD p.1 defEF) p.2)
      svc.emission_factors.length _ hall]
    rw [List.length_map, ranked_length, h2, List.length_map]
    omega
  refine ⟨_, ?_, hlen, ?_, ?_⟩
  · rw [search_ok svc idx provider files t k qv h1 h3 h5 h4]
  · rw [hlen]
    omega
  · rw [hlen]
    omega

def efC6a : EmissionFactor := ⟨1, none, none, none, none, [0]⟩

def efC6b : EmissionFactor := ⟨2, none, none, none, none, [1]⟩

def efC6c : EmissionFactor := ⟨3, none, none, none, none, [2]⟩

def efC6d : EmissionFactor := ⟨4, none, none, none, none, [3]⟩

def efC6e : EmissionFactor := ⟨5, none, none, none, none, [4]⟩

/-- A ready 5-record corpus. -/
def svcC6 : ServiceState :=
  ⟨[efC6a, efC6b, efC6c, efC6d, efC6e],
    some ⟨1, [[0], [1], [2], [3], [4]]⟩, some 1, some 1⟩

def provC6 : List Char → ProviderResult := fun _ => .vec [2]

/-- Witness for C6: `top_k = 100` against the 5-record corpus returns exactly
5 results. -/
theorem C6_result_count_witness :
    (∃ results,
      (search svcC6 provC6 [] ['q'] 100).outcome = .ok results [2]
      ∧ results.length = min 100 svcC6.emission_factors.length
      ∧ results.length ≤ 100
      ∧ results.length ≤ svcC6.emission_factors.length)
    ∧ min 100 svcC6.emission_factors.length = 5 :=
  ⟨C6_result_count svcC6 ⟨1, [[0], [1], [2], [3], [4]]⟩ provC6 [] ['q'] 100 [2]
      rfl rfl rfl rfl (by decide),
    by decide⟩

/-- C7: the loader absorbs every per-record problem into its invalid counter
(modelled by the total functions `processItem` / `processFile` over arbitrary
raw inputs, including unreadable and non-list files), the valid count equals
the number of accumulated records, and the load reports success exactly when
at least one valid record was produced. -/
theorem C7_load_contract (svc : ServiceState) (files : List RawFile) :
    ((load_data svc files).ok = true ↔ 0 < (load_data svc files).valid)
    ∧ (load_data svc files).valid
        = (load_data svc files).state.emission_factors.length := by
  have h := load_data_counts svc files
  exact ⟨h.2, h.1⟩

/-- C8 (amended): the reload is not atomic — `load_data` clears the corpus
list in place and never touches the index, so a failed reload leaves the
cleared corpus paired with the previous index, and callers observe that
partially-replaced state. -/
theorem C8_reload_not_atomic_amended (svc : ServiceState) (files : List RawFile) :
    (load_data svc files).state.index = svc.index
    ∧ ((load_data svc files).ok = false →
        (load_data svc files).state.emission_factors = []) := by
  refine ⟨(load_data_index svc files).1, ?_⟩
  intro hfail
  have h := load_data_counts svc files
  have hnot : ¬ 0 < (load_data svc files).valid := by
    intro hp
    have := h.2.mpr hp
    rw [hfail] at this
    exact Bool.false_ne_true this
  have hlen : (load_data svc files).state.emission_factors.length = 0 := by
    omega
  exact List.eq_nil_of_length_eq_zero hlen

/-- A ready one-record service about to suffer a failed reload. -/
def svcC8 : ServiceState :=
  ⟨[⟨1, none, none, none, none, [1, 1]⟩], some ⟨2, [[1, 1]]⟩, some 2, some 2⟩

def provC8 : List Char → ProviderResult := fun _ => .vec [1, 0]

/-- Witness for C8 (amended) at the concrete failed reload. -/
theorem C8_reload_not_atomic_amended_witness :
    (load_data svcC8 []).state.index = svcC8.index
    ∧ (load_data svcC8 []).state.emission_factors = [] :=
  ⟨(C8_reload_not_atomic_amended svcC8 []).1,
    (C8_reload_not_atomic_amended svcC8 []).2 rfl⟩

/-- C8 is false on the code: after a failed reload (no files found) the
caller-visible state pairs the cleared corpus with the previous non-empty
index, and a subsequent search observes it, returning an empty result list
from a stale index holding one vector. -/
theorem C8_counterexample :
    (load_data svcC8 []).state.emission_factors = []
    ∧ (load_data svcC8 []).state.index = some ⟨2, [[1, 1]]⟩
    ∧ (⟨2, [[1, 1]]⟩ : VIndex).vecs ≠ []
    ∧ svcC8.emission_factors ≠ []
    ∧ (search (load_data svcC8 []).state provC8 [] ['q'] 5).outcome
        = .ok [] [1, 0] := by
  decide

/-- C9: every returned neighbor's similarity score is `1 / (1 + d)` for the
squared Euclidean distance `d ≥ 0` between the query vector and one of the
stored vectors; hence a distance of 0 gives score 1, every score lies in
(0, 1], and the score is strictly decreasing in the distance. -/
theorem C9_similarity_score (svc : ServiceState) (idx : VIndex)
    (provider : List Char → ProviderResult) (files : List RawFile)
    (t : List Char) (k : Nat) (qv : List ℚ)
    (results : List SearchResult) (rqv : List ℚ)
    (h1 : svc.index = some idx)
    (h3 : provider (pyStrip t) = .vec qv)
    (h4 : qv.length = idx.dim)
    (h5 : ¬ normSq qv < eps2)
    (hok : (search svc provider files t k).outcome = .ok results rqv) :
    (∀ r ∈ results, ∃ i, i < idx.vecs.length
        ∧ 0 ≤ sqDist qv (idx.vecs.getD i [])
        ∧ r.similarity_score = 1 / (1 + sqDist qv (idx.vecs.getD i []))
        ∧ 0 < r.similarity_score ∧ r.similarity_score ≤ 1)
    ∧ (1 : ℚ) / (1 + 0) = 1
    ∧ ∀ d1 d2 : ℚ, 0 ≤ d1 → d1 < d2 → 1 / (1 + d2) < 1 / (1 + d1) := by
  rw [search_ok svc idx provider files t k qv h1 h3 h5 h4] at hok
  dsimp only at hok
  rw [SearchOutcome.ok.injEq] at hok
  refine ⟨?_, by norm_num, fun d1 d2 hd1 hlt => score_anti hd1 hlt⟩
  intro r hr
  rw [← hok.1] at hr
  rw [List.mem_filterMap] at hr
  obtain ⟨p, hpmem, hpf⟩ := hr
  by_cases hplt : p.1 < svc.emission_factors.length
  · rw [if_pos hplt, Option.some.injEq] at hpf
    have hm := mem_ranked hpmem
    have hd : 0 ≤ sqDist qv (idx.vecs.getD p.1 []) := sqDist_nonneg _ _
    refine ⟨p.1, hm.1, hd, ?_, ?_, ?_⟩
    · rw [← hpf, ← hm.2]
      rfl
    · rw [← hpf]
      show 0 < 1 / (1 + p.2)
      rw [hm.2]
      exact score_pos hd
    · rw [← hpf]
      show 1 / (1 + p.2) ≤ 1
      rw [hm.2]
      exact score_le_one hd
  · rw [if_neg hplt] at hpf
    exact absurd hpf (by simp)

def efC9a : EmissionFactor := ⟨1, none, none, none, none, [0]⟩

def efC9b : EmissionFactor := ⟨2, none, none, none, none, [2]⟩

def svcC9 : ServiceState := ⟨[efC9a, efC9b], some ⟨1, [[0], [2]]⟩, some 1, some 1⟩

def provC9 : List Char → ProviderResult := fun _ => .vec [1]

/-- Witness for C9 at a concrete two-record search. -/
theorem C9_similarity_score_witness :
    (∀ r ∈ [mkResult efC9a 1, mkResult efC9b 1], ∃ i,
        i < (⟨1, [[0], [2]]⟩ : VIndex).vecs.length
        ∧ 0 ≤ sqDist [1] ((⟨1, [[0], [2]]⟩ : VIndex).vecs.getD i [])
        ∧ r.similarity_score
            = 1 / (1 + sqDist [1] ((⟨1, [[0], [2]]⟩ : VIndex).vecs.getD i []))
        ∧ 0 < r.similarity_score ∧ r.similarity_score ≤ 1)
    ∧ (1 : ℚ) / (1 + 0) = 1
    ∧ ∀ d1 d2 : ℚ, 0 ≤ d1 → d1 < d2 → 1 / (1 + d2) < 1 / (1 + d1) :=
  C9_similarity_score svcC9 ⟨1, [[0], [2]]⟩ provC9 [] ['q'] 2 [1]
    [mkResult efC9a 1, mkResult efC9b 1] [1]
    rfl rfl rfl (by decide) (by decide)

/-- C10: searching with a query text padded by any leading and trailing
whitespace strips to the same cleaned text, passes it identically to the
embedding provider, and therefore produces exactly the same search run
(results and query vector included). -/
theorem C10_whitespace_insensitive (svc : ServiceState)
    (provider : List Char → ProviderResult) (files : List RawFile)
    (t ws1 ws2 : List Char) (k : Nat)
    (h1 : ∀ c ∈ ws1, c.isWhitespace = true)
    (h2 : ∀ c ∈ ws2, c.isWhitespace = true) :
    pyStrip (ws1 ++ t ++ ws2) = pyStrip t
    ∧ encode_query provider (ws1 ++ t ++ ws2) = encode_query provider t
    ∧ search svc provider files (ws1 ++ t ++ ws2) k
        = search svc provider files t k := by
  have hstrip := pyStrip_pad t ws1 ws2 h1 h2
  have henc : encode_query provider (ws1 ++ t ++ ws2) = encode_query provider t := by
    unfold encode_query
    rw [hstrip]
  refine ⟨hstrip, henc, ?_⟩
  unfold search
  simp only [searchReady_text_congr henc]

/-- Witness for C10 at a concrete padded query. -/
theorem C10_whitespace_insensitive_witness :
    pyStrip ([' '] ++ ['g', 'a', 's'] ++ ['\t', ' ']) = pyStrip ['g', 'a', 's']
    ∧ encode_query provC1 ([' '] ++ ['g', 'a', 's'] ++ ['\t', ' '])
        = encode_query provC1 ['g', 'a', 's']
    ∧ search svcC1 provC1 [] ([' '] ++ ['g', 'a', 's'] ++ ['\t', ' ']) 2
        = search svcC1 provC1 [] ['g', 'a', 's'] 2 :=
  C10_whitespace_insensitive svcC1 provC1 [] ['g', 'a', 's'] [' '] ['\t', ' '] 2
    (by decide) (by decide)

end VectorSearch
